import Mathlib

/-!
Shallow embedding of `crates/bevy_render/src/render_graph/nodes/main_pass_node.rs`:
the `MainPassNode` render-graph node, its attachment resolution, camera loop,
command replay loop, and the `DrawState` validation state machine.

Rust `panic!`/`unwrap()` failures are modelled as `Option`/`Except` error
results: a panic aborts the node's invocation for the frame.
-/

namespace Bevy

/-- Identifier types. `BufferId`, `BindGroupId`, `TextureId`, asset handles and
entities are opaque ids in the source; we model them as `Nat`. -/
abbrev BufferId := Nat

abbrev BindGroupId := Nat

abbrev TextureId := Nat

abbrev SamplerId := Nat

/-- `Handle<PipelineDescriptor>` asset handle. -/
abbrev PipelineHandle := Nat

abbrev Entity := Nat

/-- Rust `Range<u32>` as used by `DrawIndexed { indices, instances }`.
The Rust field `end` is a Lean keyword, so it is named `stop` here. -/
structure IdxRange where
  start : Nat
  stop : Nat
deriving DecidableEq, Repr

/-- Modelled from the spec: a bind-group descriptor of a pipeline layout,
exposing its slot index and its bind-group-layout id (the source reads
`bind_group_descriptor.id` after `layout.get_bind_group(*index)`;
`BindGroupDescriptor` itself is outside the given fragment). -/
structure BindGroupDescriptor where
  index : Nat
  id : Nat
deriving DecidableEq, Repr

/-- Modelled from the spec: a pipeline layout exposes the bind-group
descriptors and the number of vertex-buffer slots; only the counts and the
index-to-layout-id lookup are consumed by the fragment, so
`vertex_buffer_descriptors` is kept as its length. -/
structure PipelineLayout where
  bind_groups : List BindGroupDescriptor
  vertex_buffer_descriptors_len : Nat
deriving DecidableEq, Repr

/-- Modelled from the spec: lookup from bind-group index to its descriptor
(used as `layout.get_bind_group(*index)` in the source). -/
def PipelineLayout.get_bind_group (layout : PipelineLayout) (index : Nat) :
    Option BindGroupDescriptor :=
  layout.bind_groups.find? (fun bg => bg.index == index)

/-- Modelled from the spec: a pipeline descriptor, of which the fragment only
consumes `get_layout()` (an `Option`, unwrapped at use sites). -/
structure PipelineDescriptor where
  layout : Option PipelineLayout
deriving DecidableEq, Repr

def PipelineDescriptor.get_layout (d : PipelineDescriptor) : Option PipelineLayout :=
  d.layout

/-- The pipeline asset store `Assets<PipelineDescriptor>`: `pipelines.get(h)`. -/
abbrev Pipelines := PipelineHandle → Option PipelineDescriptor

/-- `RenderCommand` (from `draw.rs`, shape as consumed by the replay loop). -/
inductive RenderCommand where
  | SetPipeline (pipeline : PipelineHandle)
  | DrawIndexed (base_vertex : Int) (indices : IdxRange) (instances : IdxRange)
  | SetVertexBuffer (buffer : BufferId) (offset : Nat) (slot : Nat)
  | SetIndexBuffer (buffer : BufferId) (offset : Nat)
  | SetBindGroup (index : Nat) (bind_group : BindGroupId)
      (dynamic_uniform_indices : Option (List Nat))
deriving DecidableEq, Repr

/-- Per-entity `Draw` component: visibility flag plus ordered command list. -/
structure Draw where
  is_visible : Bool
  render_commands : List RenderCommand
deriving DecidableEq, Repr

/-- One call issued to the backend `render_pass` object, in issue order. -/
inductive BackendCall where
  | set_pipeline (pipeline : PipelineHandle)
  | draw_indexed (indices : IdxRange) (base_vertex : Int) (instances : IdxRange)
  | set_vertex_buffer (slot : Nat) (buffer : BufferId) (offset : Nat)
  | set_index_buffer (buffer : BufferId) (offset : Nat)
  | set_bind_group (index : Nat) (bind_group_descriptor_id : Nat)
      (bind_group : BindGroupId) (dynamic_uniform_indices : Option (List Nat))
deriving DecidableEq, Repr

/-- The `log::info!` diagnostic emitted when a draw is dropped; it names the
current `draw_state.pipeline`. -/
inductive Diagnostic where
  | could_not_draw_indexed (pipeline : Option PipelineHandle)
deriving DecidableEq, Repr

/-- A Rust panic (failed `unwrap()` or out-of-bounds index) inside the node:
fatal, aborts the node's invocation for the frame. -/
inductive ReplayError where
  | pipelineAssetMissing (pipeline : PipelineHandle)
  | pipelineLayoutMissing
  | noPipelineBound
  | bindGroupDescriptorMissing (index : Nat)
  | bindGroupIndexOutOfBounds (index : Nat)
  | vertexBufferSlotOutOfBounds (slot : Nat)
  | visibleEntitiesMissing (camera_entity : Entity)
deriving DecidableEq, Repr

/-- `DrawState`: tracks the current pipeline state to ensure draw calls are
valid (source lines 180-186, `#[derive(Default)]`). -/
structure DrawState where
  pipeline : Option PipelineHandle := none
  bind_groups : List (Option BindGroupId) := []
  vertex_buffers : List (Option BufferId) := []
  index_buffer : Option BufferId := none
deriving DecidableEq, Repr

/-- `DrawState::default()`: no pipeline, empty slot arrays, no index buffer. -/
def DrawState.default : DrawState := {}

/-- `DrawState::set_bind_group`: `self.bind_groups[index] = Some(bind_group)`;
a Rust `Vec` index out of bounds panics, modelled as `none`. -/
def DrawState.set_bind_group (s : DrawState) (index : Nat) (bind_group : BindGroupId) :
    Option DrawState :=
  if index < s.bind_groups.length then
    some { s with bind_groups := s.bind_groups.set index (some bind_group) }
  else
    none

/-- `DrawState::set_vertex_buffer`: `self.vertex_buffers[index] = Some(buffer)`;
out-of-bounds index panics, modelled as `none`. -/
def DrawState.set_vertex_buffer (s : DrawState) (index : Nat) (buffer : BufferId) :
    Option DrawState :=
  if index < s.vertex_buffers.length then
    some { s with vertex_buffers := s.vertex_buffers.set index (some buffer) }
  else
    none

/-- `DrawState::set_index_buffer`: unconditionally records the buffer. -/
def DrawState.set_index_buffer (s : DrawState) (buffer : BufferId) : DrawState :=
  { s with index_buffer := some buffer }

/-- `DrawState::can_draw_indexed`: every bind-group slot filled, every
vertex-buffer slot filled, and the index buffer set. -/
def DrawState.can_draw_indexed (s : DrawState) : Bool :=
  s.bind_groups.all (fun b => b.isSome)
    && s.vertex_buffers.all (fun v => v.isSome)
    && s.index_buffer.isSome

/-- `DrawState::set_pipeline`: clears both slot arrays and the index buffer,
records the handle, and resizes the arrays to the layout's counts
(`descriptor.get_layout().unwrap()` panics when the layout is absent,
modelled as `none`). Clear-then-resize on an empty vector is `replicate`. -/
def DrawState.set_pipeline (s : DrawState) (handle : PipelineHandle)
    (descriptor : PipelineDescriptor) : Option DrawState :=
  match descriptor.get_layout with
  | none => none
  | some layout =>
      some { s with
        pipeline := some handle
        bind_groups := List.replicate layout.bind_groups.length none
        vertex_buffers := List.replicate layout.vertex_buffer_descriptors_len none
        index_buffer := none }

/-- One iteration of the replay loop's `match render_command` (source lines
118-170): issues the backend calls and diagnostics for one command and
updates the `DrawState` in lockstep; a failed `unwrap()` aborts. -/
def stepCommand (pipelines : Pipelines) (cmd : RenderCommand) (s : DrawState) :
    Except ReplayError (List BackendCall × List Diagnostic × DrawState) :=
  match cmd with
  | .SetPipeline pipeline =>
      match pipelines pipeline with
      | none => .error (.pipelineAssetMissing pipeline)
      | some descriptor =>
          match s.set_pipeline pipeline descriptor with
          | none => .error .pipelineLayoutMissing
          | some s1 => .ok ([.set_pipeline pipeline], [], s1)
  | .DrawIndexed base_vertex indices instances =>
      if s.can_draw_indexed then
        .ok ([.draw_indexed indices base_vertex instances], [], s)
      else
        .ok ([], [.could_not_draw_indexed s.pipeline], s)
  | .SetVertexBuffer buffer offset slot =>
      match s.set_vertex_buffer slot buffer with
      | none => .error (.vertexBufferSlotOutOfBounds slot)
      | some s1 => .ok ([.set_vertex_buffer slot buffer offset], [], s1)
  | .SetIndexBuffer buffer offset =>
      .ok ([.set_index_buffer buffer offset], [], s.set_index_buffer buffer)
  | .SetBindGroup index bind_group dynamic_uniform_indices =>
      match s.pipeline with
      | none => .error .noPipelineBound
      | some handle =>
          match pipelines handle with
          | none => .error (.pipelineAssetMissing handle)
          | some pipeline =>
              match pipeline.get_layout with
              | none => .error .pipelineLayoutMissing
              | some layout =>
                  match layout.get_bind_group index with
                  | none => .error (.bindGroupDescriptorMissing index)
                  | some bind_group_descriptor =>
                      match s.set_bind_group index bind_group with
                      | none => .error (.bindGroupIndexOutOfBounds index)
                      | some s1 =>
                          .ok ([.set_bind_group index bind_group_descriptor.id
                                  bind_group dynamic_uniform_indices], [], s1)

/-- Replay of one entity's ordered command list (source lines 117-171):
commands in declaration order, calls and diagnostics concatenated, state
threaded; an error aborts the remainder. -/
def replayCommands (pipelines : Pipelines) :
    List RenderCommand → DrawState →
    Except ReplayError (List BackendCall × List Diagnostic × DrawState)
  | [], s => .ok ([], [], s)
  | cmd :: rest, s =>
      match stepCommand pipelines cmd s with
      | .error e => .error e
      | .ok (calls, logs, s1) =>
          match replayCommands pipelines rest s1 with
          | .error e => .error e
          | .ok (calls2, logs2, s2) => .ok (calls ++ calls2, logs ++ logs2, s2)

/-- The world's `get_component::<Draw>` lookup. -/
abbrev WorldDraw := Entity → Option Draw

/-- The entity loop of one pass (source lines 106-172): visible entities in
order; an entity with no `Draw` component, or with `is_visible == false`,
is skipped; otherwise its commands are replayed from the current state. -/
def replayEntities (world : WorldDraw) (pipelines : Pipelines) :
    List Entity → DrawState →
    Except ReplayError (List BackendCall × List Diagnostic × DrawState)
  | [], s => .ok ([], [], s)
  | e :: rest, s =>
      match world e with
      | none => replayEntities world pipelines rest s
      | some draw =>
          if draw.is_visible then
            match replayCommands pipelines draw.render_commands s with
            | .error err => .error err
            | .ok (calls, logs, s1) =>
                match replayEntities world pipelines rest s1 with
                | .error err => .error err
                | .ok (calls2, logs2, s2) => .ok (calls ++ calls2, logs ++ logs2, s2)
          else
            replayEntities world pipelines rest s

/-- `TextureAttachment` (from `pass.rs`, shape as consumed here): either an
unresolved named input or an already-resolved texture id. -/
inductive TextureAttachment where
  | Input (name : String)
  | Id (id : TextureId)
deriving DecidableEq, Repr

/-- A color attachment of the pass descriptor; only its `attachment` field
is consumed or rewritten by this node. -/
structure ColorAttachment where
  attachment : TextureAttachment
deriving DecidableEq, Repr

/-- The depth-stencil attachment of the pass descriptor; only its
`attachment` field is consumed or rewritten by this node. -/
structure DepthStencilAttachment where
  attachment : TextureAttachment
deriving DecidableEq, Repr

/-- `PassDescriptor` (from `pass.rs`, shape as consumed here): ordered color
attachments plus an optional depth-stencil attachment. -/
structure PassDescriptor where
  color_attachments : List ColorAttachment
  depth_stencil_attachment : Option DepthStencilAttachment
deriving DecidableEq, Repr

/-- Modelled from the spec: the resource kinds of `RenderResourceType`. -/
inductive RenderResourceType where
  | Buffer
  | Texture
  | Sampler
deriving DecidableEq, Repr

/-- `ResourceSlotInfo::new(name, resource_type)`. -/
structure ResourceSlotInfo where
  name : String
  resource_type : RenderResourceType
deriving DecidableEq, Repr

/-- Modelled from the spec: a resolved render-resource handle carried by an
input slot; `get_texture()` succeeds only on the texture variant. -/
inductive RenderResourceId where
  | Texture (id : TextureId)
  | Buffer (id : BufferId)
  | Sampler (id : SamplerId)
deriving DecidableEq, Repr

def RenderResourceId.get_texture : RenderResourceId → Option TextureId
  | .Texture id => some id
  | _ => none

/-- Modelled from the spec: `ResourceSlots`, the ordered sequence of resource
handles supplied to this node, positionally aligned with its declared
inputs; `get(i)` yields the handle at position `i` when one is set. -/
structure ResourceSlots where
  slots : List (Option RenderResourceId)
deriving DecidableEq, Repr

def ResourceSlots.get (rs : ResourceSlots) (index : Nat) : Option RenderResourceId :=
  (rs.slots.getD index none)

/-- `MainPassNode` (source lines 12-18). -/
structure MainPassNode where
  descriptor : PassDescriptor
  inputs : List ResourceSlotInfo
  cameras : List String
  color_attachment_input_indices : List (Option Nat)
  depth_stencil_attachment_input_index : Option Nat
deriving DecidableEq, Repr

/-- The color-attachment loop of `MainPassNode::new` (source lines 23-34):
walks the color attachments, pushing one input slot per `Input` attachment
onto `inputs` and recording `Some(inputs.len() - 1)` (the position of the
slot just pushed), or `None` for an already-resolved attachment. -/
def buildColorInputs : List ColorAttachment → List ResourceSlotInfo →
    List ResourceSlotInfo × List (Option Nat)
  | [], inputs => (inputs, [])
  | ca :: rest, inputs =>
      match ca.attachment with
      | .Input name =>
          let inputs1 := inputs ++ [⟨name, .Texture⟩]
          let (final_inputs, indices) := buildColorInputs rest inputs1
          (final_inputs, some (inputs1.length - 1) :: indices)
      | .Id _ =>
          let (final_inputs, indices) := buildColorInputs rest inputs
          (final_inputs, none :: indices)

/-- `MainPassNode::new` (source lines 21-54): builds the input-slot list and
the positional indices for color attachments, then for the optional
depth-stencil attachment. -/
def MainPassNode.new (descriptor : PassDescriptor) : MainPassNode :=
  let (inputs, color_attachment_input_indices) :=
    buildColorInputs descriptor.color_attachments []
  let (inputs2, depth_stencil_attachment_input_index) :=
    match descriptor.depth_stencil_attachment with
    | some dsa =>
        match dsa.attachment with
        | .Input name => (inputs ++ [⟨name, .Texture⟩], some inputs.length)
        | .Id _ => (inputs, none)
    | none => (inputs, none)
  { descriptor := descriptor
    inputs := inputs2
    cameras := []
    color_attachment_input_indices := color_attachment_input_indices
    depth_stencil_attachment_input_index := depth_stencil_attachment_input_index }

/-- `MainPassNode::add_camera`. -/
def MainPassNode.add_camera (node : MainPassNode) (camera_name : String) : MainPassNode :=
  { node with cameras := node.cameras ++ [camera_name] }

/-- The color part of the attachment-resolution loop of `update` (source
lines 78-83): for each color attachment whose recorded index is `Some`,
overwrite the attachment with the resolved texture id from the input slots
(`input.get(i).unwrap().get_texture().unwrap()` panics, modelled `none`);
attachments with no recorded index are left unchanged. Indexing
`color_attachment_input_indices[i]` past its end also panics. -/
def resolveColorAttachments (input : ResourceSlots) :
    List ColorAttachment → List (Option Nat) → Option (List ColorAttachment)
  | [], _ => some []
  | _ :: _, [] => none
  | ca :: rest, idx :: indices =>
      match idx with
      | none =>
          match resolveColorAttachments input rest indices with
          | none => none
          | some out => some (ca :: out)
      | some input_index =>
          match (input.get input_index).bind RenderResourceId.get_texture with
          | none => none
          | some texture =>
              match resolveColorAttachments input rest indices with
              | none => none
              | some out => some ({ ca with attachment := .Id texture } :: out)

/-- The attachment-resolution step of `update` (source lines 78-92): color
attachments, then the optional depth-stencil attachment
(`descriptor.depth_stencil_attachment.as_mut().unwrap()` and the slot
lookups panic on absence, modelled `none`). Returns the descriptor the
pass is subsequently opened with. -/
def MainPassNode.resolve (node : MainPassNode) (input : ResourceSlots) :
    Option PassDescriptor :=
  match resolveColorAttachments input node.descriptor.color_attachments
      node.color_attachment_input_indices with
  | none => none
  | some color_attachments =>
      match node.depth_stencil_attachment_input_index with
      | none => some { node.descriptor with color_attachments := color_attachments }
      | some input_index =>
          match node.descriptor.depth_stencil_attachment with
          | none => none
          | some dsa =>
              match (input.get input_index).bind RenderResourceId.get_texture with
              | none => none
              | some texture =>
                  some { color_attachments := color_attachments
                         depth_stencil_attachment :=
                           some { dsa with attachment := .Id texture } }

/-- The active-camera registry: `active_cameras.get(camera_name)`. -/
abbrev ActiveCameras := String → Option Entity

/-- The world's `get_component::<VisibleEntities>` lookup; the iteration
order of `VisibleEntities` is the contained entity list's order. -/
abbrev WorldVisibleEntities := Entity → Option (List Entity)

/-- One backend pass produced by `begin_pass` for one camera: the camera
name it was opened for, the backend calls issued inside it, and the
diagnostics logged inside it. -/
structure Pass where
  camera : String
  calls : List BackendCall
  logs : List Diagnostic
deriving DecidableEq, Repr

/-- The camera loop (source lines 94-175): cameras in registration order; a
name with no active camera entity is skipped via `continue`; an active
camera entity missing `VisibleEntities` panics; otherwise one backend pass
is opened with a fresh `DrawState::default()` and the entities replayed. -/
def runCameras (active_cameras : ActiveCameras) (world_visible : WorldVisibleEntities)
    (world : WorldDraw) (pipelines : Pipelines) :
    List String → Except ReplayError (List Pass)
  | [] => .ok []
  | camera_name :: rest =>
      match active_cameras camera_name with
      | none => runCameras active_cameras world_visible world pipelines rest
      | some camera_entity =>
          match world_visible camera_entity with
          | none => .error (.visibleEntitiesMissing camera_entity)
          | some visible_entities =>
              match replayEntities world pipelines visible_entities DrawState.default with
              | .error err => .error err
              | .ok (calls, logs, _) =>
                  match runCameras active_cameras world_visible world pipelines rest with
                  | .error err => .error err
                  | .ok passes => .ok (⟨camera_name, calls, logs⟩ :: passes)

/-! ## Theorems -/

/-- C1: a `DrawIndexed` command is issued to the backend iff every bind-group
slot is filled, every vertex-buffer slot is filled, and the index buffer is
set; when not ready the draw is dropped, a diagnostic naming the current
pipeline is emitted, and replay continues with the next command. -/
theorem drawIndexed_issued_iff_ready (pipelines : Pipelines) (s : DrawState)
    (base_vertex : Int) (indices instances : IdxRange) (rest : List RenderCommand) :
    (stepCommand pipelines (.DrawIndexed base_vertex indices instances) s =
      if s.bind_groups.all (fun b => b.isSome) && s.vertex_buffers.all (fun v => v.isSome)
          && s.index_buffer.isSome
      then .ok ([.draw_indexed indices base_vertex instances], [], s)
      else .ok ([], [.could_not_draw_indexed s.pipeline], s))
    ∧ (s.can_draw_indexed = false →
      replayCommands pipelines (.DrawIndexed base_vertex indices instances :: rest) s =
        match replayCommands pipelines rest s with
        | .error e => .error e
        | .ok (calls, logs, s1) =>
            .ok (calls, Diagnostic.could_not_draw_indexed s.pipeline :: logs, s1)) := by
  constructor
  · rfl
  · intro hnotready
    simp only [replayCommands, stepCommand, hnotready, Bool.false_eq_true, if_false]
    cases hr : replayCommands pipelines rest s with
    | error e => rfl
    | ok out =>
        obtain ⟨calls, logs, s1⟩ := out
        simp

/-- Witness for C1 at a concrete not-ready state: the initial state has no
index buffer, so the draw is dropped with a diagnostic and replay of the
remaining (empty) command list continues. -/
theorem drawIndexed_issued_iff_ready_witness :
    DrawState.default.can_draw_indexed = false ∧
    replayCommands (fun _ => none)
      [RenderCommand.DrawIndexed 0 ⟨0, 3⟩ ⟨0, 1⟩] DrawState.default =
      .ok ([], [Diagnostic.could_not_draw_indexed none], DrawState.default) := by
  refine ⟨by decide, ?_⟩
  have h := (drawIndexed_issued_iff_ready (fun _ => none) DrawState.default
    0 ⟨0, 3⟩ ⟨0, 1⟩ []).2 (by decide)
  simpa using h

/-- C2: `SetPipeline` resets the bind-group array to all-empty at the
layout's bind-group count, the vertex-buffer array to all-empty at the
layout's vertex-buffer count, clears the index buffer, records the
pipeline, and leaves draw readiness false for every prior state. -/
theorem set_pipeline_resets (s : DrawState) (handle : PipelineHandle)
    (descriptor : PipelineDescriptor) (layout : PipelineLayout)
    (h : descriptor.get_layout = some layout) :
    s.set_pipeline handle descriptor =
      some { pipeline := some handle
             bind_groups := List.replicate layout.bind_groups.length none
             vertex_buffers := List.replicate layout.vertex_buffer_descriptors_len none
             index_buffer := none }
    ∧ ∀ s1, s.set_pipeline handle descriptor = some s1 → s1.can_draw_indexed = false := by
  have heq : s.set_pipeline handle descriptor =
      some { pipeline := some handle
             bind_groups := List.replicate layout.bind_groups.length none
             vertex_buffers := List.replicate layout.vertex_buffer_descriptors_len none
             index_buffer := none } := by
    simp only [DrawState.set_pipeline, h]
  refine ⟨heq, ?_⟩
  intro s1 hs1
  rw [heq] at hs1
  cases hs1
  simp [DrawState.can_draw_indexed]

/-- Witness for C2 at a concrete pipeline layout with one bind-group slot
and two vertex-buffer slots, applied to a nonempty prior state. -/
theorem set_pipeline_resets_witness :
    (PipelineDescriptor.mk (some ⟨[⟨0, 7⟩], 2⟩)).get_layout = some ⟨[⟨0, 7⟩], 2⟩ ∧
    DrawState.set_pipeline ⟨some 9, [some 4], [some 5], some 6⟩ 3
        (PipelineDescriptor.mk (some ⟨[⟨0, 7⟩], 2⟩)) =
      some { pipeline := some 3
             bind_groups := [none]
             vertex_buffers := [none, none]
             index_buffer := none } := by
  refine ⟨rfl, ?_⟩
  have h := (set_pipeline_resets ⟨some 9, [some 4], [some 5], some 6⟩ 3
    (PipelineDescriptor.mk (some ⟨[⟨0, 7⟩], 2⟩)) ⟨[⟨0, 7⟩], 2⟩ rfl).1
  simpa using h

/-- C4: a `SetBindGroup` command executed while no pipeline is bound is a
fatal sequencing error: the step fails and replay of the whole command
stream aborts with that error. -/
theorem setBindGroup_without_pipeline_fatal (pipelines : Pipelines) (s : DrawState)
    (index : Nat) (bind_group : BindGroupId) (dyn : Option (List Nat))
    (rest : List RenderCommand) (h : s.pipeline = none) :
    stepCommand pipelines (.SetBindGroup index bind_group dyn) s =
      .error .noPipelineBound
    ∧ replayCommands pipelines (.SetBindGroup index bind_group dyn :: rest) s =
      .error .noPipelineBound := by
  have hstep : stepCommand pipelines (.SetBindGroup index bind_group dyn) s =
      .error .noPipelineBound := by
    simp only [stepCommand, h]
  refine ⟨hstep, ?_⟩
  simp only [replayCommands, hstep]

/-- Witness for C4: the initial state has no pipeline, so a lone
`SetBindGroup` aborts the replay. -/
theorem setBindGroup_without_pipeline_fatal_witness :
    replayCommands (fun _ => none)
      [RenderCommand.SetBindGroup 0 5 none, RenderCommand.SetIndexBuffer 1 0]
      DrawState.default = .error .noPipelineBound := by
  exact (setBindGroup_without_pipeline_fatal (fun _ => none) DrawState.default
    0 5 none [RenderCommand.SetIndexBuffer 1 0] rfl).2

/-- C6: a visible entity with no `Draw` component, or whose `Draw` has
`is_visible = false`, contributes zero backend calls: replaying the list
with it equals replaying the list without it. -/
theorem ineligible_entity_contributes_nothing (world : WorldDraw) (pipelines : Pipelines)
    (e : Entity) (rest : List Entity) (s : DrawState)
    (h : world e = none ∨ ∃ d, world e = some d ∧ d.is_visible = false) :
    replayEntities world pipelines (e :: rest) s =
      replayEntities world pipelines rest s := by
  rcases h with h | ⟨d, hd, hvis⟩
  · simp only [replayEntities, h]
  · simp only [replayEntities, hd, hvis, Bool.false_eq_true, if_false]

/-- Witness for C6: one entity with an invisible `Draw` and one absent
entity both drop out of the replay. -/
theorem ineligible_entity_contributes_nothing_witness :
    replayEntities
      (fun e => if e = 0 then some ⟨false, [RenderCommand.SetIndexBuffer 1 0]⟩ else none)
      (fun _ => none) [0, 7] DrawState.default =
      replayEntities
        (fun e => if e = 0 then some ⟨false, [RenderCommand.SetIndexBuffer 1 0]⟩ else none)
        (fun _ => none) [7] DrawState.default := by
  exact ineligible_entity_contributes_nothing
    (fun e => if e = 0 then some ⟨false, [RenderCommand.SetIndexBuffer 1 0]⟩ else none)
    (fun _ => none) 0 [7] DrawState.default
    (Or.inr ⟨⟨false, [RenderCommand.SetIndexBuffer 1 0]⟩, by decide, rfl⟩)

/-- C9: with a bound pipeline state, `set_vertex_buffer` under the
precondition `slot < vertex_buffers.length` fills exactly that slot with
the buffer id and changes nothing else; without the precondition the
indexing is a fatal error. -/
theorem set_vertex_buffer_marks_slot (s : DrawState) (slot : Nat) (buffer : BufferId) :
    (slot < s.vertex_buffers.length →
      ∃ s1, s.set_vertex_buffer slot buffer = some s1 ∧
        s1.vertex_buffers[slot]? = some (some buffer) ∧
        (∀ j, j ≠ slot → s1.vertex_buffers[j]? = s.vertex_buffers[j]?) ∧
        s1.pipeline = s.pipeline ∧ s1.bind_groups = s.bind_groups ∧
        s1.index_buffer = s.index_buffer)
    ∧ (s.vertex_buffers.length ≤ slot → s.set_vertex_buffer slot buffer = none) := by
  constructor
  · intro h
    refine ⟨{ s with vertex_buffers := s.vertex_buffers.set slot (some buffer) }, ?_, ?_, ?_, rfl, rfl, rfl⟩
    · simp [DrawState.set_vertex_buffer, h]
    · simpa using List.getElem?_set_self h
    · intro j hj
      simpa using List.getElem?_set_ne (Ne.symm hj)
  · intro h
    simp [DrawState.set_vertex_buffer, Nat.not_lt.mpr h]

/-- Witness for C9: slot 1 of a two-slot state is filled in place; slot 2 is
out of bounds and fatal. -/
theorem set_vertex_buffer_marks_slot_witness :
    (∃ s1, DrawState.set_vertex_buffer ⟨some 3, [some 4], [none, none], none⟩ 1 8 = some s1 ∧
        s1.vertex_buffers[1]? = some (some 8) ∧
        (∀ j, j ≠ 1 → s1.vertex_buffers[j]? =
          (DrawState.mk (some 3) [some 4] [none, none] none).vertex_buffers[j]?) ∧
        s1.pipeline = some 3 ∧ s1.bind_groups = [some 4] ∧ s1.index_buffer = none)
    ∧ DrawState.set_vertex_buffer ⟨some 3, [some 4], [none, none], none⟩ 2 8 = none := by
  constructor
  · exact (set_vertex_buffer_marks_slot ⟨some 3, [some 4], [none, none], none⟩ 1 8).1
      (by decide)
  · exact (set_vertex_buffer_marks_slot ⟨some 3, [some 4], [none, none], none⟩ 2 8).2
      (by decide)

/-- C10: from the initial `DrawState` (no pipeline bound, empty slot
arrays), a single `SetIndexBuffer` makes `can_draw_indexed` true
vacuously, so a following `DrawIndexed` is issued to the backend even
though no pipeline was ever bound. -/
theorem drawIndexed_after_only_setIndexBuffer (pipelines : Pipelines)
    (buffer : BufferId) (offset : Nat) (base_vertex : Int)
    (indices instances : IdxRange) :
    (DrawState.default.set_index_buffer buffer).can_draw_indexed = true ∧
    (DrawState.default.set_index_buffer buffer).pipeline = none ∧
    replayCommands pipelines
      [.SetIndexBuffer buffer offset, .DrawIndexed base_vertex indices instances]
      DrawState.default =
      .ok ([.set_index_buffer buffer offset,
            .draw_indexed indices base_vertex instances], [],
        { pipeline := none, bind_groups := [], vertex_buffers := [],
          index_buffer := some buffer }) := by
  refine ⟨rfl, rfl, rfl⟩

/-- Helper: replay of a concatenated command list is the concatenation of
the replays, threading the intermediate state. -/
theorem replayCommands_append_ok (pipelines : Pipelines) (cs1 : List RenderCommand) :
    ∀ (cs2 : List RenderCommand) (s : DrawState) (calls1 : List BackendCall)
      (logs1 : List Diagnostic) (s1 : DrawState) (calls2 : List BackendCall)
      (logs2 : List Diagnostic) (s2 : DrawState),
      replayCommands pipelines cs1 s = .ok (calls1, logs1, s1) →
      replayCommands pipelines cs2 s1 = .ok (calls2, logs2, s2) →
      replayCommands pipelines (cs1 ++ cs2) s =
        .ok (calls1 ++ calls2, logs1 ++ logs2, s2) := by
  induction cs1 with
  | nil =>
      intro cs2 s calls1 logs1 s1 calls2 logs2 s2 h1 h2
      simp only [replayCommands, Except.ok.injEq, Prod.mk.injEq] at h1
      obtain ⟨hc, hl, hs⟩ := h1
      subst hc; subst hl; subst hs
      simpa using h2
  | cons cmd cs ih =>
      intro cs2 s calls1 logs1 s1 calls2 logs2 s2 h1 h2
      simp only [List.cons_append, replayCommands] at h1 ⊢
      cases hstep : stepCommand pipelines cmd s with
      | error e =>
          simp only [hstep] at h1
          exact Except.noConfusion h1
      | ok out =>
          obtain ⟨c0, l0, s0⟩ := out
          simp only [hstep] at h1 ⊢
          cases hrest : replayCommands pipelines cs s0 with
          | error e =>
              simp only [hrest] at h1
              exact Except.noConfusion h1
          | ok out2 =>
              obtain ⟨c1, l1, s1x⟩ := out2
              simp only [hrest, Except.ok.injEq, Prod.mk.injEq] at h1
              obtain ⟨hc, hl, hs⟩ := h1
              subst hc; subst hl; subst hs
              simp only [List.append_eq,
                ih cs2 s0 c1 l1 s1x calls2 logs2 s2 hrest h2]
              simp

/-- Helper: replay of a concatenated visible-entity list is the
concatenation of the replays, threading the intermediate state. -/
theorem replayEntities_append_ok (world : WorldDraw) (pipelines : Pipelines)
    (es1 : List Entity) :
    ∀ (es2 : List Entity) (s : DrawState) (calls1 : List BackendCall)
      (logs1 : List Diagnostic) (s1 : DrawState) (calls2 : List BackendCall)
      (logs2 : List Diagnostic) (s2 : DrawState),
      replayEntities world pipelines es1 s = .ok (calls1, logs1, s1) →
      replayEntities world pipelines es2 s1 = .ok (calls2, logs2, s2) →
      replayEntities world pipelines (es1 ++ es2) s =
        .ok (calls1 ++ calls2, logs1 ++ logs2, s2) := by
  induction es1 with
  | nil =>
      intro es2 s calls1 logs1 s1 calls2 logs2 s2 h1 h2
      simp only [replayEntities, Except.ok.injEq, Prod.mk.injEq] at h1
      obtain ⟨hc, hl, hs⟩ := h1
      subst hc; subst hl; subst hs
      simpa using h2
  | cons e es ih =>
      intro es2 s calls1 logs1 s1 calls2 logs2 s2 h1 h2
      simp only [List.cons_append, replayEntities] at h1 ⊢
      cases hw : world e with
      | none =>
          simp only [hw] at h1 ⊢
          exact ih es2 s calls1 logs1 s1 calls2 logs2 s2 h1 h2
      | some draw =>
          simp only [hw] at h1 ⊢
          cases hvis : draw.is_visible with
          | false =>
              simp only [hvis, Bool.false_eq_true, if_false] at h1 ⊢
              exact ih es2 s calls1 logs1 s1 calls2 logs2 s2 h1 h2
          | true =>
              simp only [hvis, if_true] at h1 ⊢
              cases hcmd : replayCommands pipelines draw.render_commands s with
              | error err =>
                  simp only [hcmd] at h1
                  exact Except.noConfusion h1
              | ok out =>
                  obtain ⟨c0, l0, s0⟩ := out
                  simp only [hcmd] at h1 ⊢
                  cases hrest : replayEntities world pipelines es s0 with
                  | error err =>
                      simp only [hrest] at h1
                      exact Except.noConfusion h1
                  | ok out2 =>
                      obtain ⟨c1, l1, s1x⟩ := out2
                      simp only [hrest, Except.ok.injEq, Prod.mk.injEq] at h1
                      obtain ⟨hc, hl, hs⟩ := h1
                      subst hc; subst hl; subst hs
                      simp only [List.append_eq,
                        ih es2 s0 c1 l1 s1x calls2 logs2 s2 hrest h2]
                      simp

/-- Helper: a single eligible entity replays exactly its own command list
from the current state. -/
theorem replayEntities_singleton (world : WorldDraw) (pipelines : Pipelines)
    (e : Entity) (draw : Draw) (s : DrawState) (hw : world e = some draw)
    (hvis : draw.is_visible = true) :
    replayEntities world pipelines [e] s =
      replayCommands pipelines draw.render_commands s := by
  simp only [replayEntities, hw, hvis, if_true]
  cases hcmd : replayCommands pipelines draw.render_commands s with
  | error err => rfl
  | ok out =>
      obtain ⟨c, l, s1⟩ := out
      simp [replayEntities]

/-- C5: the backend calls of a pass are the concatenation, over visible
entities in order, of each eligible entity's commands dispatched in
declaration order: replay distributes over concatenation at both the
entity level and the command level, and a single eligible entity
contributes exactly the replay of its declared command list. -/
theorem replay_order_is_concatenation (world : WorldDraw) (pipelines : Pipelines) :
    (∀ (es1 es2 : List Entity) (s : DrawState) (calls1 : List BackendCall)
      (logs1 : List Diagnostic) (s1 : DrawState) (calls2 : List BackendCall)
      (logs2 : List Diagnostic) (s2 : DrawState),
      replayEntities world pipelines es1 s = .ok (calls1, logs1, s1) →
      replayEntities world pipelines es2 s1 = .ok (calls2, logs2, s2) →
      replayEntities world pipelines (es1 ++ es2) s =
        .ok (calls1 ++ calls2, logs1 ++ logs2, s2))
    ∧ (∀ (cs1 cs2 : List RenderCommand) (s : DrawState) (calls1 : List BackendCall)
      (logs1 : List Diagnostic) (s1 : DrawState) (calls2 : List BackendCall)
      (logs2 : List Diagnostic) (s2 : DrawState),
      replayCommands pipelines cs1 s = .ok (calls1, logs1, s1) →
      replayCommands pipelines cs2 s1 = .ok (calls2, logs2, s2) →
      replayCommands pipelines (cs1 ++ cs2) s =
        .ok (calls1 ++ calls2, logs1 ++ logs2, s2))
    ∧ (∀ (e : Entity) (draw : Draw) (s : DrawState), world e = some draw →
      draw.is_visible = true →
      replayEntities world pipelines [e] s =
        replayCommands pipelines draw.render_commands s) := by
  refine ⟨?_, ?_, ?_⟩
  · intro es1 es2 s calls1 logs1 s1 calls2 logs2 s2 h1 h2
    exact replayEntities_append_ok world pipelines es1 es2 s calls1 logs1 s1
      calls2 logs2 s2 h1 h2
  · intro cs1 cs2 s calls1 logs1 s1 calls2 logs2 s2 h1 h2
    exact replayCommands_append_ok pipelines cs1 cs2 s calls1 logs1 s1
      calls2 logs2 s2 h1 h2
  · intro e draw s hw hvis
    exact replayEntities_singleton world pipelines e draw s hw hvis

/-- Witness for C5 at a concrete world: entity 0 sets the index buffer,
entity 1 then draws; concatenation at the entity level, at the command
level, and the single-entity unfolding are all exercised. -/
theorem replay_order_is_concatenation_witness :
    (replayEntities
      (fun e => if e = 0 then some ⟨true, [RenderCommand.SetIndexBuffer 1 0]⟩
        else some ⟨true, [RenderCommand.DrawIndexed 0 ⟨0, 3⟩ ⟨0, 1⟩]⟩)
      (fun _ => none) ([0] ++ [1]) DrawState.default =
      .ok ([BackendCall.set_index_buffer 1 0] ++ [BackendCall.draw_indexed ⟨0, 3⟩ 0 ⟨0, 1⟩],
        [] ++ [],
        { pipeline := none, bind_groups := [], vertex_buffers := [],
          index_buffer := some 1 }))
    ∧ (replayCommands (fun _ => none)
      ([RenderCommand.SetIndexBuffer 1 0] ++ [RenderCommand.DrawIndexed 0 ⟨0, 3⟩ ⟨0, 1⟩])
      DrawState.default =
      .ok ([BackendCall.set_index_buffer 1 0] ++ [BackendCall.draw_indexed ⟨0, 3⟩ 0 ⟨0, 1⟩],
        [] ++ [],
        { pipeline := none, bind_groups := [], vertex_buffers := [],
          index_buffer := some 1 }))
    ∧ (replayEntities
      (fun e => if e = 0 then some ⟨true, [RenderCommand.SetIndexBuffer 1 0]⟩
        else some ⟨true, [RenderCommand.DrawIndexed 0 ⟨0, 3⟩ ⟨0, 1⟩]⟩)
      (fun _ => none) [0] DrawState.default =
      replayCommands (fun _ => none) [RenderCommand.SetIndexBuffer 1 0]
        DrawState.default) := by
  refine ⟨?_, ?_, ?_⟩
  · exact (replay_order_is_concatenation
      (fun e => if e = 0 then some ⟨true, [RenderCommand.SetIndexBuffer 1 0]⟩
        else some ⟨true, [RenderCommand.DrawIndexed 0 ⟨0, 3⟩ ⟨0, 1⟩]⟩)
      (fun _ => none)).1 [0] [1] DrawState.default
      [BackendCall.set_index_buffer 1 0] []
      { pipeline := none, bind_groups := [], vertex_buffers := [],
        index_buffer := some 1 }
      [BackendCall.draw_indexed ⟨0, 3⟩ 0 ⟨0, 1⟩] []
      { pipeline := none, bind_groups := [], vertex_buffers := [],
        index_buffer := some 1 } rfl rfl
  · exact (replay_order_is_concatenation
      (fun e => if e = 0 then some ⟨true, [RenderCommand.SetIndexBuffer 1 0]⟩
        else some ⟨true, [RenderCommand.DrawIndexed 0 ⟨0, 3⟩ ⟨0, 1⟩]⟩)
      (fun _ => none)).2.1 [RenderCommand.SetIndexBuffer 1 0]
      [RenderCommand.DrawIndexed 0 ⟨0, 3⟩ ⟨0, 1⟩] DrawState.default
      [BackendCall.set_index_buffer 1 0] []
      { pipeline := none, bind_groups := [], vertex_buffers := [],
        index_buffer := some 1 }
      [BackendCall.draw_indexed ⟨0, 3⟩ 0 ⟨0, 1⟩] []
      { pipeline := none, bind_groups := [], vertex_buffers := [],
        index_buffer := some 1 } rfl rfl
  · exact (replay_order_is_concatenation
      (fun e => if e = 0 then some ⟨true, [RenderCommand.SetIndexBuffer 1 0]⟩
        else some ⟨true, [RenderCommand.DrawIndexed 0 ⟨0, 3⟩ ⟨0, 1⟩]⟩)
      (fun _ => none)).2.2 0 ⟨true, [RenderCommand.SetIndexBuffer 1 0]⟩
      DrawState.default rfl rfl

/-- The shape invariant of `DrawState` relative to the pipeline asset store:
with no pipeline bound both slot arrays are empty; with pipeline `handle`
bound they have exactly the lengths of `handle`'s resolved layout. -/
def DrawStateInv (pipelines : Pipelines) (s : DrawState) : Prop :=
  match s.pipeline with
  | none => s.bind_groups = [] ∧ s.vertex_buffers = []
  | some handle =>
      ∃ d layout, pipelines handle = some d ∧ d.get_layout = some layout ∧
        s.bind_groups.length = layout.bind_groups.length ∧
        s.vertex_buffers.length = layout.vertex_buffer_descriptors_len

/-- C3: the initial `DrawState` satisfies the shape invariant, every
successful command step preserves it, and a pipeline change discards and
resizes both slot sequences and discards the index buffer. -/
theorem drawState_shape_invariant (pipelines : Pipelines) :
    DrawStateInv pipelines DrawState.default
    ∧ (∀ (cmd : RenderCommand) (s : DrawState) (calls : List BackendCall)
        (logs : List Diagnostic) (s1 : DrawState),
        DrawStateInv pipelines s →
        stepCommand pipelines cmd s = .ok (calls, logs, s1) →
        DrawStateInv pipelines s1)
    ∧ (∀ (s : DrawState) (handle : PipelineHandle) (d : PipelineDescriptor)
        (layout : PipelineLayout), d.get_layout = some layout →
        s.set_pipeline handle d =
          some { pipeline := some handle
                 bind_groups := List.replicate layout.bind_groups.length none
                 vertex_buffers := List.replicate layout.vertex_buffer_descriptors_len none
                 index_buffer := none }) := by
  refine ⟨⟨rfl, rfl⟩, ?_, ?_⟩
  · intro cmd s calls logs s1 hinv hstep
    cases cmd with
    | SetPipeline p =>
        simp only [stepCommand] at hstep
        cases hp : pipelines p with
        | none =>
            simp only [hp] at hstep
            exact Except.noConfusion hstep
        | some descriptor =>
            simp only [hp] at hstep
            cases hl : descriptor.get_layout with
            | none =>
                simp only [DrawState.set_pipeline, hl] at hstep
                exact Except.noConfusion hstep
            | some layout =>
                simp only [DrawState.set_pipeline, hl, Except.ok.injEq,
                  Prod.mk.injEq] at hstep
                obtain ⟨-, -, hs1⟩ := hstep
                subst hs1
                exact ⟨descriptor, layout, hp, hl, by simp, by simp⟩
    | DrawIndexed base_vertex indices instances =>
        simp only [stepCommand] at hstep
        cases hready : s.can_draw_indexed with
        | true =>
            simp only [hready, if_true, Except.ok.injEq, Prod.mk.injEq] at hstep
            obtain ⟨-, -, hs1⟩ := hstep
            subst hs1
            exact hinv
        | false =>
            simp only [hready, Bool.false_eq_true, if_false, Except.ok.injEq,
              Prod.mk.injEq] at hstep
            obtain ⟨-, -, hs1⟩ := hstep
            subst hs1
            exact hinv
    | SetVertexBuffer buffer offset slot =>
        simp only [stepCommand] at hstep
        cases hsv : s.set_vertex_buffer slot buffer with
        | none =>
            simp only [hsv] at hstep
            exact Except.noConfusion hstep
        | some sx =>
            simp only [hsv, Except.ok.injEq, Prod.mk.injEq] at hstep
            obtain ⟨-, -, hs1⟩ := hstep
            subst hs1
            simp only [DrawState.set_vertex_buffer] at hsv
            by_cases hlt : slot < s.vertex_buffers.length
            · simp only [hlt, if_true, Option.some.injEq] at hsv
              subst hsv
              unfold DrawStateInv at hinv ⊢
              cases hp : s.pipeline with
              | none =>
                  simp only [hp] at hinv ⊢
                  exact ⟨hinv.1, by simp [hinv.2]⟩
              | some handle =>
                  simp only [hp] at hinv ⊢
                  obtain ⟨d, layout, h1, h2, h3, h4⟩ := hinv
                  exact ⟨d, layout, h1, h2, h3, by simpa using h4⟩
            · simp only [hlt, if_false] at hsv
              exact Option.noConfusion hsv
    | SetIndexBuffer buffer offset =>
        simp only [stepCommand, Except.ok.injEq, Prod.mk.injEq] at hstep
        obtain ⟨-, -, hs1⟩ := hstep
        subst hs1
        unfold DrawStateInv at hinv ⊢
        cases hp : s.pipeline with
        | none =>
            simp only [hp] at hinv
            simpa [DrawState.set_index_buffer, hp] using hinv
        | some handle =>
            simp only [hp] at hinv
            simpa [DrawState.set_index_buffer, hp] using hinv
    | SetBindGroup index bind_group dyn =>
        simp only [stepCommand] at hstep
        cases hp : s.pipeline with
        | none =>
            simp only [hp] at hstep
            exact Except.noConfusion hstep
        | some handle =>
            simp only [hp] at hstep
            cases hd : pipelines handle with
            | none =>
                simp only [hd] at hstep
                exact Except.noConfusion hstep
            | some d =>
                simp only [hd] at hstep
                cases hl : d.get_layout with
                | none =>
                    simp only [hl] at hstep
                    exact Except.noConfusion hstep
                | some layout =>
                    simp only [hl] at hstep
                    cases hbg : layout.get_bind_group index with
                    | none =>
                        simp only [hbg] at hstep
                        exact Except.noConfusion hstep
                    | some bgd =>
                        simp only [hbg] at hstep
                        cases hsb : s.set_bind_group index bind_group with
                        | none =>
                            simp only [hsb] at hstep
                            exact Except.noConfusion hstep
                        | some sx =>
                            simp only [hsb, Except.ok.injEq, Prod.mk.injEq] at hstep
                            obtain ⟨-, -, hs1⟩ := hstep
                            subst hs1
                            simp only [DrawState.set_bind_group] at hsb
                            by_cases hlt : index < s.bind_groups.length
                            · simp only [hlt, if_true, Option.some.injEq] at hsb
                              subst hsb
                              unfold DrawStateInv at hinv ⊢
                              simp only [hp] at hinv ⊢
                              obtain ⟨d0, layout0, h1, h2, h3, h4⟩ := hinv
                              exact ⟨d0, layout0, h1, h2, by simpa using h3, h4⟩
                            · simp only [hlt, if_false] at hsb
                              exact Option.noConfusion hsb
  · intro s handle d layout hl
    simp only [DrawState.set_pipeline, hl]

/-- Witness for C3: the invariant step is exercised on a concrete
`SetIndexBuffer` command from the initial state, and a concrete pipeline
change resets the slot arrays to the layout's counts. -/
theorem drawState_shape_invariant_witness :
    DrawStateInv (fun _ => some ⟨some ⟨[⟨0, 7⟩], 2⟩⟩)
      { pipeline := none, bind_groups := [], vertex_buffers := [],
        index_buffer := some 5 }
    ∧ DrawState.set_pipeline DrawState.default 3 ⟨some ⟨[⟨0, 7⟩], 2⟩⟩ =
      some { pipeline := some 3
             bind_groups := [none]
             vertex_buffers := [none, none]
             index_buffer := none } := by
  constructor
  · exact (drawState_shape_invariant (fun _ => some ⟨some ⟨[⟨0, 7⟩], 2⟩⟩)).2.1
      (.SetIndexBuffer 5 0) DrawState.default [.set_index_buffer 5 0] []
      { pipeline := none, bind_groups := [], vertex_buffers := [],
        index_buffer := some 5 }
      ⟨rfl, rfl⟩ rfl
  · have h := (drawState_shape_invariant (fun _ => some ⟨some ⟨[⟨0, 7⟩], 2⟩⟩)).2.2
      DrawState.default 3 ⟨some ⟨[⟨0, 7⟩], 2⟩⟩ ⟨[⟨0, 7⟩], 2⟩ rfl
    simpa using h

/-- C7: a registered camera name with no active camera entity is skipped
entirely (zero backend passes, not an error), and cameras are processed in
registration order: an active camera with a successful replay contributes
exactly one pass, prepended before the passes of the remaining cameras. -/
theorem inactive_camera_skipped (active_cameras : ActiveCameras)
    (world_visible : WorldVisibleEntities) (world : WorldDraw) (pipelines : Pipelines)
    (camera_name : String) (rest : List String) :
    (active_cameras camera_name = none →
      runCameras active_cameras world_visible world pipelines (camera_name :: rest) =
        runCameras active_cameras world_visible world pipelines rest)
    ∧ (∀ (camera_entity : Entity) (visible_entities : List Entity)
        (calls : List BackendCall) (logs : List Diagnostic) (s1 : DrawState)
        (passes : List Pass),
        active_cameras camera_name = some camera_entity →
        world_visible camera_entity = some visible_entities →
        replayEntities world pipelines visible_entities DrawState.default =
          .ok (calls, logs, s1) →
        runCameras active_cameras world_visible world pipelines rest = .ok passes →
        runCameras active_cameras world_visible world pipelines (camera_name :: rest) =
          .ok (⟨camera_name, calls, logs⟩ :: passes)) := by
  constructor
  · intro h
    simp only [runCameras, h]
  · intro camera_entity visible_entities calls logs s1 passes hac hwv hrep hrest
    simp only [runCameras, hac, hwv, hrep, hrest]

/-- Witness for C7: camera "a" has no active entity and is skipped; camera
"b" is active with an empty visible-entity list and contributes exactly one
(empty) pass. -/
theorem inactive_camera_skipped_witness :
    (runCameras (fun n => if n = "b" then some 0 else none) (fun _ => some [])
      (fun _ => none) (fun _ => none) ["a", "b"] =
      runCameras (fun n => if n = "b" then some 0 else none) (fun _ => some [])
        (fun _ => none) (fun _ => none) ["b"])
    ∧ (runCameras (fun n => if n = "b" then some 0 else none) (fun _ => some [])
      (fun _ => none) (fun _ => none) ["b", "a"] = .ok [⟨"b", [], []⟩]) := by
  constructor
  · exact (inactive_camera_skipped (fun n => if n = "b" then some 0 else none)
      (fun _ => some []) (fun _ => none) (fun _ => none) "a" ["b"]).1 rfl
  · exact (inactive_camera_skipped (fun n => if n = "b" then some 0 else none)
      (fun _ => some []) (fun _ => none) (fun _ => none) "b" ["a"]).2
      0 [] [] [] DrawState.default [] rfl rfl rfl rfl

/-- Helper: unfolding `buildColorInputs` on a named-input attachment. -/
theorem buildColorInputs_cons_input (name : String) (rest : List ColorAttachment)
    (inputs : List ResourceSlotInfo) :
    buildColorInputs (⟨.Input name⟩ :: rest) inputs =
      ((buildColorInputs rest (inputs ++ [⟨name, .Texture⟩])).1,
        some inputs.length :: (buildColorInputs rest (inputs ++ [⟨name, .Texture⟩])).2) := by
  cases hb : buildColorInputs rest (inputs ++ [⟨name, .Texture⟩]) with
  | mk fst snd => simp [buildColorInputs, hb]

/-- Helper: unfolding `buildColorInputs` on an already-resolved attachment. -/
theorem buildColorInputs_cons_id (t : TextureId) (rest : List ColorAttachment)
    (inputs : List ResourceSlotInfo) :
    buildColorInputs (⟨.Id t⟩ :: rest) inputs =
      ((buildColorInputs rest inputs).1, none :: (buildColorInputs rest inputs).2) := by
  cases hb : buildColorInputs rest inputs with
  | mk fst snd => simp [buildColorInputs, hb]

/-- Helper: the recorded index list has one entry per color attachment. -/
theorem buildColorInputs_snd_length (cas : List ColorAttachment) :
    ∀ inputs : List ResourceSlotInfo, (buildColorInputs cas inputs).2.length = cas.length := by
  induction cas with
  | nil => intro inputs; rfl
  | cons ca rest ih =>
      intro inputs
      obtain ⟨att⟩ := ca
      cases att with
      | Input name =>
          rw [buildColorInputs_cons_input]
          simp [ih]
      | Id t =>
          rw [buildColorInputs_cons_id]
          simp [ih]

/-- Helper: a color attachment gets a recorded input index exactly when it
was declared as a named input. -/
theorem buildColorInputs_isSome_iff (cas : List ColorAttachment) :
    ∀ (inputs : List ResourceSlotInfo) (i : Nat) (ca : ColorAttachment),
      cas[i]? = some ca →
      ((∃ k, (buildColorInputs cas inputs).2[i]? = some (some k)) ↔
        ∃ name, ca.attachment = TextureAttachment.Input name) := by
  induction cas with
  | nil => intro inputs i ca h; simp at h
  | cons ca0 rest ih =>
      intro inputs i ca h
      obtain ⟨att⟩ := ca0
      cases att with
      | Input name =>
          rw [buildColorInputs_cons_input]
          cases i with
          | zero =>
              simp only [List.getElem?_cons_zero, Option.some.injEq] at h
              subst h
              simp
          | succ n =>
              simp only [List.getElem?_cons_succ] at h ⊢
              exact ih _ n ca h
      | Id t =>
          rw [buildColorInputs_cons_id]
          cases i with
          | zero =>
              simp only [List.getElem?_cons_zero, Option.some.injEq] at h
              subst h
              simp
          | succ n =>
              simp only [List.getElem?_cons_succ] at h ⊢
              exact ih _ n ca h

/-- Helper: pointwise description of the color-attachment resolution loop:
an attachment with no recorded index is returned unchanged, and one with
recorded index `k` is returned with the texture resolved from slot `k`. -/
theorem resolveColorAttachments_spec (input : ResourceSlots) (cas : List ColorAttachment) :
    ∀ (idxs : List (Option Nat)) (out : List ColorAttachment),
      idxs.length = cas.length →
      resolveColorAttachments input cas idxs = some out →
      out.length = cas.length ∧
      ∀ i : Nat,
        (idxs[i]? = some none → out[i]? = cas[i]?) ∧
        (∀ k, idxs[i]? = some (some k) →
          ∃ ca t, cas[i]? = some ca ∧
            (input.get k).bind RenderResourceId.get_texture = some t ∧
            out[i]? = some { ca with attachment := TextureAttachment.Id t }) := by
  induction cas with
  | nil =>
      intro idxs out hlen hres
      cases idxs with
      | cons idx idxs => simp at hlen
      | nil =>
          simp only [resolveColorAttachments, Option.some.injEq] at hres
          subst hres
          refine ⟨rfl, ?_⟩
          intro i
          constructor
          · intro hc; simp at hc
          · intro k hc; simp at hc
  | cons ca rest ih =>
      intro idxs out hlen hres
      cases idxs with
      | nil => simp at hlen
      | cons idx idxs =>
          simp only [List.length_cons, Nat.add_right_cancel_iff] at hlen
          cases idx with
          | none =>
              simp only [resolveColorAttachments] at hres
              cases hr : resolveColorAttachments input rest idxs with
              | none =>
                  simp only [hr] at hres
                  exact Option.noConfusion hres
              | some out2 =>
                  simp only [hr, Option.some.injEq] at hres
                  subst hres
                  obtain ⟨hlen2, hpt⟩ := ih idxs out2 hlen hr
                  refine ⟨by simp [hlen2], ?_⟩
                  intro i
                  cases i with
                  | zero =>
                      constructor
                      · intro _; simp
                      · intro k hk; simp at hk
                  | succ n =>
                      simp only [List.getElem?_cons_succ]
                      exact hpt n
          | some k0 =>
              simp only [resolveColorAttachments] at hres
              cases ht : (input.get k0).bind RenderResourceId.get_texture with
              | none =>
                  simp only [ht] at hres
                  exact Option.noConfusion hres
              | some t =>
                  simp only [ht] at hres
                  cases hr : resolveColorAttachments input rest idxs with
                  | none =>
                      simp only [hr] at hres
                      exact Option.noConfusion hres
                  | some out2 =>
                      simp only [hr, Option.some.injEq] at hres
                      subst hres
                      obtain ⟨hlen2, hpt⟩ := ih idxs out2 hlen hr
                      refine ⟨by simp [hlen2], ?_⟩
                      intro i
                      cases i with
                      | zero =>
                          constructor
                          · intro hk; simp at hk
                          · intro k hk
                            simp only [List.getElem?_cons_zero, Option.some.injEq] at hk
                            subst hk
                            exact ⟨ca, t, by simp, ht, by simp⟩
                      | succ n =>
                          simp only [List.getElem?_cons_succ]
                          exact hpt n

/-- Helper: the constructor stores the descriptor unchanged. -/
theorem MainPassNode.new_descriptor (d : PassDescriptor) :
    (MainPassNode.new d).descriptor = d := rfl

/-- Helper: the recorded color-attachment indices of a fresh node. -/
theorem MainPassNode.new_color_indices (d : PassDescriptor) :
    (MainPassNode.new d).color_attachment_input_indices =
      (buildColorInputs d.color_attachments []).2 := rfl

/-- Helper: the recorded depth-stencil index of a fresh node. -/
theorem MainPassNode.new_depth_index (d : PassDescriptor) :
    (MainPassNode.new d).depth_stencil_attachment_input_index =
      (match d.depth_stencil_attachment with
       | some dsa =>
           match dsa.attachment with
           | .Input _ => some (buildColorInputs d.color_attachments []).1.length
           | .Id _ => none
       | none => none) := by
  cases hd : d.depth_stencil_attachment with
  | none => simp [MainPassNode.new, hd]
  | some dsa =>
      obtain ⟨att⟩ := dsa
      cases att with
      | Input name => simp [MainPassNode.new, hd]
      | Id t => simp [MainPassNode.new, hd]

/-- C8: resolution replaces exactly the attachments originally declared as
named inputs (`Input name`) with the resolved texture id taken from the
positional index recorded at construction time, and leaves attachments
already carrying a literal id unchanged; this holds for the ordered color
attachments and for the depth-stencil attachment. -/
theorem resolve_substitutes_exactly_named_inputs (d : PassDescriptor)
    (input : ResourceSlots) (res : PassDescriptor)
    (h : (MainPassNode.new d).resolve input = some res) :
    (res.color_attachments.length = d.color_attachments.length)
    ∧ (∀ (i : Nat) (ca : ColorAttachment), d.color_attachments[i]? = some ca →
        ((∃ k, (MainPassNode.new d).color_attachment_input_indices[i]? = some (some k)) ↔
          ∃ name, ca.attachment = TextureAttachment.Input name))
    ∧ (∀ (i : Nat) (ca : ColorAttachment), d.color_attachments[i]? = some ca →
        (MainPassNode.new d).color_attachment_input_indices[i]? = some none →
        res.color_attachments[i]? = some ca)
    ∧ (∀ (i k : Nat),
        (MainPassNode.new d).color_attachment_input_indices[i]? = some (some k) →
        ∃ ca t, d.color_attachments[i]? = some ca ∧
          (input.get k).bind RenderResourceId.get_texture = some t ∧
          res.color_attachments[i]? = some { ca with attachment := TextureAttachment.Id t })
    ∧ ((MainPassNode.new d).depth_stencil_attachment_input_index.isSome ↔
        (∃ dsa name, d.depth_stencil_attachment = some dsa ∧
          dsa.attachment = TextureAttachment.Input name))
    ∧ ((MainPassNode.new d).depth_stencil_attachment_input_index = none →
        res.depth_stencil_attachment = d.depth_stencil_attachment)
    ∧ (∀ k, (MainPassNode.new d).depth_stencil_attachment_input_index = some k →
        ∃ dsa t, d.depth_stencil_attachment = some dsa ∧
          (input.get k).bind RenderResourceId.get_texture = some t ∧
          res.depth_stencil_attachment =
            some { dsa with attachment := TextureAttachment.Id t }) := by
  have hlen : (buildColorInputs d.color_attachments []).2.length =
      d.color_attachments.length := buildColorInputs_snd_length d.color_attachments []
  simp only [MainPassNode.resolve, MainPassNode.new_descriptor,
    MainPassNode.new_color_indices] at h
  cases hrc : resolveColorAttachments input d.color_attachments
      (buildColorInputs d.color_attachments []).2 with
  | none =>
      rw [hrc] at h
      exact Option.noConfusion h
  | some cas2 =>
      rw [hrc] at h
      obtain ⟨hlen2, hpt⟩ :=
        resolveColorAttachments_spec input d.color_attachments
          (buildColorInputs d.color_attachments []).2 cas2 hlen hrc
      have hkey : res.color_attachments = cas2
          ∧ ((MainPassNode.new d).depth_stencil_attachment_input_index.isSome ↔
              (∃ dsa name, d.depth_stencil_attachment = some dsa ∧
                dsa.attachment = TextureAttachment.Input name))
          ∧ ((MainPassNode.new d).depth_stencil_attachment_input_index = none →
              res.depth_stencil_attachment = d.depth_stencil_attachment)
          ∧ (∀ k, (MainPassNode.new d).depth_stencil_attachment_input_index = some k →
              ∃ dsa t, d.depth_stencil_attachment = some dsa ∧
                (input.get k).bind RenderResourceId.get_texture = some t ∧
                res.depth_stencil_attachment =
                  some { dsa with attachment := TextureAttachment.Id t }) := by
        cases hd : d.depth_stencil_attachment with
        | none =>
            have hdi : (MainPassNode.new d).depth_stencil_attachment_input_index = none := by
              simp [MainPassNode.new_depth_index, hd]
            simp only [hdi] at h
            simp only [Option.some.injEq] at h
            subst h
            refine ⟨rfl, ?_, ?_, ?_⟩
            · simp [hdi, hd]
            · intro _; simp [hd]
            · intro k hk; rw [hdi] at hk; exact Option.noConfusion hk
        | some dsa =>
            obtain ⟨att⟩ := dsa
            cases att with
            | Id t0 =>
                have hdi : (MainPassNode.new d).depth_stencil_attachment_input_index
                    = none := by
                  simp [MainPassNode.new_depth_index, hd]
                simp only [hdi] at h
                simp only [Option.some.injEq] at h
                subst h
                refine ⟨rfl, ?_, ?_, ?_⟩
                · simp [hdi, hd]
                · intro _; simp [hd]
                · intro k hk; rw [hdi] at hk; exact Option.noConfusion hk
            | Input name =>
                have hdi : (MainPassNode.new d).depth_stencil_attachment_input_index =
                    some (buildColorInputs d.color_attachments []).1.length := by
                  simp [MainPassNode.new_depth_index, hd]
                simp only [hdi, hd] at h
                cases ht : (input.get (buildColorInputs d.color_attachments []).1.length).bind
                    RenderResourceId.get_texture with
                | none =>
                    rw [ht] at h
                    exact Option.noConfusion h
                | some t =>
                    rw [ht] at h
                    simp only [Option.some.injEq] at h
                    subst h
                    refine ⟨rfl, ?_, ?_, ?_⟩
                    · simp only [hdi, Option.isSome_some, true_iff]
                      exact ⟨⟨.Input name⟩, name, rfl, rfl⟩
                    · intro hk; rw [hdi] at hk; exact Option.noConfusion hk
                    · intro k hk
                      rw [hdi] at hk
                      simp only [Option.some.injEq] at hk
                      subst hk
                      exact ⟨⟨.Input name⟩, t, rfl, ht, rfl⟩
      obtain ⟨hcol, hiff, hnone, hsome⟩ := hkey
      refine ⟨by rw [hcol]; exact hlen2, ?_, ?_, ?_, hiff, hnone, hsome⟩
      · intro i ca hca
        rw [MainPassNode.new_color_indices]
        exact buildColorInputs_isSome_iff d.color_attachments [] i ca hca
      · intro i ca hca hidx
        rw [MainPassNode.new_color_indices] at hidx
        rw [hcol, (hpt i).1 hidx, hca]
      · intro i k hidx
        rw [MainPassNode.new_color_indices] at hidx
        obtain ⟨ca, t, hca, ht, hout⟩ := (hpt i).2 k hidx
        exact ⟨ca, t, hca, ht, by rw [hcol]; exact hout⟩

/-- Witness for C8 on a concrete descriptor: color attachment 0 is a named
input resolved from slot 0, color attachment 1 already carries a literal id
and is untouched, and the depth-stencil attachment is a named input
resolved from slot 1. -/
theorem resolve_substitutes_exactly_named_inputs_witness :
    ((MainPassNode.new ⟨[⟨.Input "c"⟩, ⟨.Id 9⟩], some ⟨.Input "ds"⟩⟩).resolve
        ⟨[some (.Texture 4), some (.Texture 6)]⟩ =
      some ⟨[⟨.Id 4⟩, ⟨.Id 9⟩], some ⟨.Id 6⟩⟩)
    ∧ (⟨[⟨.Id 4⟩, ⟨.Id 9⟩], some ⟨.Id 6⟩⟩ : PassDescriptor).color_attachments.length =
      ([⟨.Input "c"⟩, ⟨.Id 9⟩] : List ColorAttachment).length := by
  refine ⟨rfl, ?_⟩
  exact (resolve_substitutes_exactly_named_inputs
    ⟨[⟨.Input "c"⟩, ⟨.Id 9⟩], some ⟨.Input "ds"⟩⟩
    ⟨[some (.Texture 4), some (.Texture 6)]⟩
    ⟨[⟨.Id 4⟩, ⟨.Id 9⟩], some ⟨.Id 6⟩⟩ rfl).1

end Bevy
